import Mathlib

/-!
Verification of the vim-reviewer repository: the offline PR review data
model (offline_pr_review.py), its persistence and publish behavior, and the
neovim plugin workflow (rplugin/python3/vim-reviewer.py), shallowly embedded
in Lean.

JSON values are modelled by an inductive type. The Python stdlib json
module (json.dumps / json.loads with indent=2) is an external library whose
printing is a deterministic injective function of the value, so the
repository's serialization code is embedded at the level of Json values,
with exactly the keys and key order the source produces.
-/

namespace VimReviewer

/-- A JSON value: null, boolean, number (the sources only ever store
integers), string, array, or object with an ordered field list. -/
inductive Json where
  | null : Json
  | bool : Bool → Json
  | num : Int → Json
  | str : String → Json
  | arr : List Json → Json
  | obj : List (String × Json) → Json

/-- Key lookup in an object's field list (Python dict indexing). -/
def lookupField : List (String × Json) → String → Option Json
  | [], _ => none
  | (k, v) :: rest, key => if k = key then some v else lookupField rest key

/-- Dict indexing `json_repr[key]`: a missing key (Python KeyError) is none. -/
def Json.getField : Json → String → Option Json
  | .obj fields, key => lookupField fields key
  | _, _ => none

def Json.asStr : Json → Option String
  | .str s => some s
  | _ => none

def Json.asInt : Json → Option Int
  | .num n => some n
  | _ => none

def Json.asArr : Json → Option (List Json)
  | .arr xs => some xs
  | _ => none

/-- A value that is either null (Python None) or an integer. -/
def Json.asOptInt : Json → Option (Option Int)
  | .null => some none
  | .num n => some (some n)
  | _ => none

/-- A value that is either null (Python None) or a string. -/
def Json.asOptStr : Json → Option (Option String)
  | .null => some none
  | .str s => some (some s)
  | _ => none

/-- The ordered key list of a JSON object. -/
def Json.objKeys : Json → List String
  | .obj fields => fields.map Prod.fst
  | _ => []

/-- Optional integer encoded with explicit null, as Python json encodes None. -/
def optIntJson : Option Int → Json
  | none => Json.null
  | some n => Json.num n

/-- Optional string encoded with explicit null. -/
def optStrJson : Option String → Json
  | none => Json.null
  | some s => Json.str s

/-- The Comment dataclass of offline_pr_review.py, fields in source order.
Side is a typing.Literal annotation in Python, unenforced at runtime, so
sides are embedded as strings (the sources only construct "RIGHT"/"LEFT").
Lines are Python ints, embedded as Int. -/
structure Comment where
  body : String
  line : Int
  path : String
  side : String
  start_line : Option Int
  start_side : Option String
deriving DecidableEq

/-- Comment.to_json: the dict literal of the source, in source key order. -/
def Comment.to_json (c : Comment) : Json :=
  Json.obj [("body", Json.str c.body), ("path", Json.str c.path),
    ("line", Json.num c.line), ("side", Json.str c.side),
    ("start_line", optIntJson c.start_line), ("start_side", optStrJson c.start_side)]

/-- Comment.from_json: Python indexes the dict by key (KeyError when absent)
and passes the values positionally to the constructor in the order
body, line, path, side, start_line, start_side; failure is Option. -/
def Comment.from_json (j : Json) : Option Comment :=
  match j.getField "body", j.getField "line", j.getField "path",
      j.getField "side", j.getField "start_line", j.getField "start_side" with
  | some bJ, some lJ, some pJ, some sJ, some slJ, some ssJ =>
    match bJ.asStr, lJ.asInt, pJ.asStr, sJ.asStr, slJ.asOptInt, ssJ.asOptStr with
    | some b, some l, some p, some s, some sl, some ss =>
      some { body := b, line := l, path := p, side := s, start_line := sl, start_side := ss }
    | _, _, _, _, _, _ => none
  | _, _, _, _, _, _ => none

/-- The Review dataclass of offline_pr_review.py, fields in source order. -/
structure Review where
  owner : String
  repo : String
  pr_number : Int
  body : String
  comments : List Comment
deriving DecidableEq

/-- Review.to_json: the dict literal of the source, in source key order. -/
def Review.to_json (r : Review) : Json :=
  Json.obj [("owner", Json.str r.owner), ("repo", Json.str r.repo),
    ("pr_number", Json.num r.pr_number), ("body", Json.str r.body),
    ("comments", Json.arr (r.comments.map Comment.to_json))]

/-- Review.serialize: json.dumps(self.to_json(), indent=2). The textual
encoding is the stdlib's deterministic function of the value, so at the
level of this embedding serialization is the Json value itself. -/
def Review.serialize (r : Review) : Json :=
  r.to_json

/-- The list comprehension `[Comment.from_json(c) for c in ...]`, which in
Python raises as soon as one element fails. -/
def commentsFromJson : List Json → Option (List Comment)
  | [] => some []
  | j :: rest =>
    match Comment.from_json j, commentsFromJson rest with
    | some c, some cs => some (c :: cs)
    | _, _ => none

/-- Review.from_json: dict indexing by the five keys, values passed
positionally to the constructor. -/
def Review.from_json (j : Json) : Option Review :=
  match j.getField "owner", j.getField "repo", j.getField "pr_number",
      j.getField "body", j.getField "comments" with
  | some oJ, some rJ, some nJ, some bJ, some csJ =>
    match oJ.asStr, rJ.asStr, nJ.asInt, bJ.asStr, csJ.asArr with
    | some o, some re, some n, some b, some cs =>
      match commentsFromJson cs with
      | some comments => some { owner := o, repo := re, pr_number := n, body := b, comments := comments }
      | none => none
    | _, _, _, _, _ => none
  | _, _, _, _, _ => none

/-- Review.deserialize: json.loads then Review.from_json. -/
def Review.deserialize (j : Json) : Option Review :=
  Review.from_json j

/-- The eligibility test of Review.get_comment_at_position (Python:
`c.path == path and (line == c.line or (c.start_line is not None and
line >= c.start_line and line <= c.line))`). -/
def comment_matches (path : String) (line : Int) (c : Comment) : Bool :=
  c.path == path &&
    (line == c.line ||
      (match c.start_line with
       | some sl => decide (sl ≤ line) && decide (line ≤ c.line)
       | none => false))

/-- Review.get_comment_at_position: filter the comments to those whose span
contains the requested path and line, return the first if any, else None. -/
def Review.get_comment_at_position (r : Review) (path : String) (line : Int) : Option Comment :=
  let eligible_comments := r.comments.filter fun c => comment_matches path line c
  eligible_comments.head?

/-- Modelled from the spec for the refinement comparison: find_comment_at
returns the first (lowest insertion index) comment whose path matches
exactly and whose line range contains the line, none when nothing matches. -/
def find_comment_at (r : Review) (path : String) (line : Int) : Option Comment :=
  r.comments.find? fun c => comment_matches path line c

/-- Review.add_comment: `self.comments.append(comment)`. -/
def Review.add_comment (r : Review) (c : Comment) : Review :=
  { r with comments := r.comments ++ [c] }

/-- Review.set_body: replaces body unconditionally. -/
def Review.set_body (r : Review) (b : String) : Review :=
  { r with body := b }

/-- Modelled from the spec: `Review.delete_comment` is invoked by the
plugin's DeleteComment command (vim-reviewer.py) but no such method is
defined anywhere in the sources; the spec describes it as removing the
first structurally-equal match from `comments` and failing silently
(no-op) when no match exists. The Except result records whether an error
would be signalled to the caller; per the spec's description of the
observed behavior every call returns ok. -/
def Review.delete_comment (r : Review) (c : Comment) : Except String Review :=
  Except.ok { r with comments := r.comments.erase c }

/-- An HTTP request as handed to the external requests library. -/
structure HttpRequest where
  method : String
  url : String
  data : Json
  headers : List (String × String)

/-- Review.post_url: the f-string of the source. -/
def Review.post_url (r : Review) : String :=
  "https://api.github.com/repos/" ++ r.owner ++ "/" ++ r.repo ++ "/pulls/" ++
    toString r.pr_number ++ "/reviews"

/-- Review.publish: requests.post(post_url, data=serialize(), headers=...).
The requests library is external; the embedding captures the single request
it is given. requests.post returns the raw response and publish never calls
raise_for_status, so no exception is raised on non-2xx status. -/
def Review.publish (r : Review) (token : String) : HttpRequest :=
  { method := "POST", url := r.post_url, data := Review.serialize r,
    headers := [("Accept", "application/vnd.github+json"),
      ("Authorization", "token " ++ token)] }

/-- Review.save, modelled over the persisted-file state: `fs` maps a PR
number to the content of its review file when one exists. save overwrites
the file for this review's pr_number with the serialized review. -/
def Review.save (r : Review) (fs : Int → Option Json) : Int → Option Json :=
  fun pr => if pr = r.pr_number then some (Review.serialize r) else fs pr

/-- new_blank_review: owner and repo from the stored configuration, empty
body and comment list. -/
def new_blank_review (cfg : String × String) (pr : Int) : Review :=
  { owner := cfg.1, repo := cfg.2, pr_number := pr, body := "", comments := [] }

/-- get_review, modelled over the persisted-file state `fs` and the stored
configuration `cfg`: deserialize the persisted file when it exists,
otherwise a blank review. (get_or_create_review in the same file is
line-for-line identical.) -/
def get_review (fs : Int → Option Json) (cfg : String × String) (pr : Int) : Option Review :=
  match fs pr with
  | some content => Review.deserialize content
  | none => some (new_blank_review cfg pr)

/-- Occurrences of a character in a list of characters. -/
def countChar (c : Char) : List Char → Nat
  | [] => 0
  | x :: rest => (if x = c then 1 else 0) + countChar c rest

/-- Python str.split(sep) for a single-character separator, on the
character-list representation of the string. -/
def splitOnChar (sep : Char) : List Char → List (List Char)
  | [] => [[]]
  | c :: rest =>
    if c = sep then
      [] :: splitOnChar sep rest
    else
      match splitOnChar sep rest with
      | [] => [[c]]
      | h :: t => (c :: h) :: t

/-- The tuple unpacking `owner, repo = repository.split("/")`, which raises
ValueError unless the split yields exactly two parts. -/
def split_repository (repository : List Char) : Option (List Char × List Char) :=
  match splitOnChar '/' repository with
  | [owner, repo] => some (owner, repo)
  | _ => none

/-- Outcome of update_configuration: the resulting config-file content, the
overwrite warning, and whether the call raised. -/
structure UpdateResult where
  config_file : Option (List Char × List Char)
  warned : Bool
  error : Bool
deriving DecidableEq

/-- update_configuration, modelled over the config-file state: `prior` is
the existing config-file content (owner, repo) when the file exists. The
source first prints the overwrite warning whenever the file exists, then
evaluates the tuple unpacking of repository.split("/") — which raises
unless the split has exactly two parts — and only then opens the file for
writing, so a failed split leaves the file untouched. -/
def update_configuration (prior : Option (List Char × List Char))
    (repository : List Char) : UpdateResult :=
  match split_repository repository with
  | some (o, re) => { config_file := some (o, re), warned := prior.isSome, error := false }
  | none => { config_file := prior, warned := prior.isSome, error := true }

/-- User-visible side effects of a plugin command. -/
inductive Effect where
  | err_write : String → Effect
  | out_write : String → Effect
  | open_buffer : String → Effect
deriving DecidableEq

/-- The mutable session state of the TestPlugin class in vim-reviewer.py. -/
structure PluginState where
  review_active : Bool
  review : Option Review
  in_progress_comment : Option Comment
deriving DecidableEq

/-- TestPlugin.review_comment (the ReviewComment command), identical in
vim-reviewer.py and nvim-plugin.py: `path?` is the result of
current_buffer_path, `rng` the command's (start, end) range. If a comment
is already being edited the command errors and returns before touching any
state; otherwise it creates the draft comment and opens a scratch buffer
with the SaveComment on-save hook. -/
def review_comment (s : PluginState) (path? : Option String) (rng : Int × Int) :
    PluginState × List Effect :=
  match s.in_progress_comment with
  | some _ => (s, [Effect.err_write "A review comment is already being edited.\n"])
  | none =>
    match path? with
    | none => (s, [Effect.err_write "Current buffer is not a valid path in the git repository.\n"])
    | some path =>
      let draft : Comment :=
        { body := "", line := rng.2, path := path, side := "RIGHT",
          start_line := some rng.1, start_side := some "RIGHT" }
      ({ s with in_progress_comment := some draft },
       [Effect.open_buffer "SaveComment new"])

/-- Scenario B single-line comment at line 5 of src/a.py. -/
def cB1 : Comment :=
  { body := "single", line := 5, path := "src/a.py", side := "RIGHT",
    start_line := none, start_side := none }

/-- Scenario B ranged comment spanning lines 8 to 12 of src/a.py. -/
def cB2 : Comment :=
  { body := "ranged", line := 12, path := "src/a.py", side := "RIGHT",
    start_line := some 8, start_side := some "RIGHT" }

/-- Scenario B review holding the two comments. -/
def rB : Review :=
  { owner := "acme", repo := "widgets", pr_number := 42, body := "", comments := [cB1, cB2] }

/-- A review with no comments. -/
def blank_review : Review :=
  { owner := "o", repo := "r", pr_number := 1, body := "", comments := [] }

/-- A comment whose start_line exceeds its line. -/
def bad_comment : Comment :=
  { body := "bad", line := 5, path := "a.py", side := "RIGHT",
    start_line := some 10, start_side := some "RIGHT" }

/-- The single comment of review_one. -/
def keep_comment : Comment :=
  { body := "keep", line := 3, path := "a.py", side := "RIGHT",
    start_line := none, start_side := none }

/-- A review holding exactly keep_comment. -/
def review_one : Review :=
  { owner := "o", repo := "r", pr_number := 1, body := "", comments := [keep_comment] }

/-- A comment structurally distinct from everything in review_one. -/
def absent_comment : Comment :=
  { body := "gone", line := 9, path := "b.py", side := "RIGHT",
    start_line := none, start_side := none }

/-- A review used for the publish request. -/
def sample_review : Review :=
  { owner := "acme", repo := "widgets", pr_number := 42, body := "LGTM", comments := [] }

end VimReviewer

namespace VimReviewer

theorem comment_round_trip (c : Comment) : Comment.from_json (Comment.to_json c) = some c := by
  cases c with
  | mk body line path side start_line start_side =>
    cases start_line <;> cases start_side <;> rfl

theorem commentsFromJson_map (cs : List Comment) :
    commentsFromJson (cs.map Comment.to_json) = some cs := by
  induction cs with
  | nil => rfl
  | cons c rest ih =>
    simp only [List.map_cons, commentsFromJson, comment_round_trip, ih]

theorem review_round_trip (r : Review) : Review.from_json (Review.to_json r) = some r := by
  cases r with
  | mk o re n b cs =>
    show (match commentsFromJson (cs.map Comment.to_json) with
      | some comments => some (Review.mk o re n b comments)
      | none => none) = some (Review.mk o re n b cs)
    rw [commentsFromJson_map]

theorem head?_filter_eq_find? {α : Type} (p : α → Bool) (l : List α) :
    (l.filter p).head? = l.find? p := by
  induction l with
  | nil => rfl
  | cons x xs ih =>
    cases h : p x <;> simp [List.filter_cons, List.find?_cons, h, ih]

/-- C1: Review.get_comment_at_position returns the first comment in
insertion order whose path equals the queried path exactly and whose range
contains the line (line equal to the comment's line, or start_line set and
start_line ≤ line ≤ the comment's line), and none when no comment matches;
on the Scenario B review the [8,12] comment answers line 10, the line-5
comment answers line 5, and line 20 has no answer. -/
theorem c1_get_comment_at_position_first_match :
    (∀ (r : Review) (path : String) (line : Int),
      Review.get_comment_at_position r path line = find_comment_at r path line) ∧
    Review.get_comment_at_position rB "src/a.py" 10 = some cB2 ∧
    Review.get_comment_at_position rB "src/a.py" 5 = some cB1 ∧
    Review.get_comment_at_position rB "src/a.py" 20 = none := by
  refine ⟨fun r path line => head?_filter_eq_find? _ _, ?_, ?_, ?_⟩ <;> rfl

/-- C2: for every Review, deserializing the serialization reproduces the
review exactly; the serialized form is a JSON object with keys owner, repo,
pr_number, body, comments in that order, each comment with keys body, path,
line, side, start_line, start_side, with absent optional fields serialized
as explicit null rather than omitted. -/
theorem c2_serialize_round_trip :
    ∀ (r : Review),
      Review.deserialize (Review.serialize r) = some r ∧
      Json.objKeys (Review.serialize r) = ["owner", "repo", "pr_number", "body", "comments"] ∧
      (∀ c : Comment, Json.objKeys (Comment.to_json c) =
        ["body", "path", "line", "side", "start_line", "start_side"]) ∧
      (∀ c : Comment, c.start_line = none →
        Json.getField (Comment.to_json c) "start_line" = some Json.null) ∧
      (∀ c : Comment, c.start_side = none →
        Json.getField (Comment.to_json c) "start_side" = some Json.null) := by
  intro r
  refine ⟨review_round_trip r, rfl, fun c => rfl, fun c h => ?_, fun c h => ?_⟩
  · show some (optIntJson c.start_line) = some Json.null
    rw [h]; rfl
  · show some (optStrJson c.start_side) = some Json.null
    rw [h]; rfl

theorem c2_witness :
    Review.deserialize (Review.serialize rB) = some rB ∧
    Json.getField (Comment.to_json cB1) "start_line" = some Json.null ∧
    Json.getField (Comment.to_json cB1) "start_side" = some Json.null :=
  ⟨(c2_serialize_round_trip rB).1,
   (c2_serialize_round_trip rB).2.2.2.1 cB1 rfl,
   (c2_serialize_round_trip rB).2.2.2.2 cB1 rfl⟩

/-- C9: add_comment always succeeds, appends the comment as the new last
element of comments (no deduplication, duplicates permitted, insertion
order preserved), and leaves owner, repo, pr_number, body and all earlier
comments unchanged. -/
theorem c9_add_comment_appends :
    ∀ (r : Review) (c : Comment),
      (Review.add_comment r c).comments = r.comments ++ [c] ∧
      (Review.add_comment r c).owner = r.owner ∧
      (Review.add_comment r c).repo = r.repo ∧
      (Review.add_comment r c).pr_number = r.pr_number ∧
      (Review.add_comment r c).body = r.body ∧
      (Review.add_comment (Review.add_comment r c) c).comments = r.comments ++ [c, c] := by
  intro r c
  refine ⟨rfl, rfl, rfl, rfl, rfl, ?_⟩
  simp [Review.add_comment]

/-- C5 counterexample: add_comment accepts, unchanged, a comment whose
start_line (10) exceeds its line (5); no rejection or normalization
happens on the acceptance path. -/
theorem c5_counterexample :
    (Review.add_comment blank_review bad_comment).comments = [bad_comment] ∧
    bad_comment.start_line = some 10 ∧ bad_comment.line = 5 ∧ (5 : Int) < 10 :=
  ⟨rfl, rfl, rfl, by decide⟩

/-- C5 amended: add_comment performs no validation of the span invariant:
even a comment whose start_line strictly exceeds its line is appended
unchanged, so the acceptance path does not reject or normalize violations. -/
theorem c5_no_span_validation :
    ∀ (r : Review) (c : Comment) (sl : Int),
      c.start_line = some sl → c.line < sl →
      Review.add_comment r c = { r with comments := r.comments ++ [c] } := by
  intro r c sl h1 h2
  rfl

theorem c5_witness :
    Review.add_comment blank_review bad_comment =
      { blank_review with comments := blank_review.comments ++ [bad_comment] } :=
  c5_no_span_validation blank_review bad_comment 10 rfl (by decide)

/-- C3 counterexample: the body of the publish request for a concrete
review carries the keys owner, repo, pr_number, body, comments — not
exactly the keys body and comments as the claim states. -/
theorem c3_counterexample :
    Json.objKeys (Review.publish sample_review "tok").data =
      ["owner", "repo", "pr_number", "body", "comments"] ∧
    Json.objKeys (Review.publish sample_review "tok").data ≠ ["body", "comments"] :=
  ⟨rfl, by decide⟩

/-- C3 amended: publish issues a single HTTP POST to
https://api.github.com/repos/{owner}/{repo}/pulls/{pr_number}/reviews whose
JSON body is the review's full serialization, carrying the keys owner,
repo, pr_number, body, comments (each comment with keys body, path, line,
side, start_line, start_side), with headers Accept:
application/vnd.github+json and Authorization: token {token}; the response
is returned raw, with no exception raised on non-2xx status. -/
theorem c3_publish_request :
    ∀ (r : Review) (token : String),
      (Review.publish r token).method = "POST" ∧
      (Review.publish r token).url =
        "https://api.github.com/repos/" ++ r.owner ++ "/" ++ r.repo ++ "/pulls/" ++
          toString r.pr_number ++ "/reviews" ∧
      (Review.publish r token).headers =
        [("Accept", "application/vnd.github+json"), ("Authorization", "token " ++ token)] ∧
      (Review.publish r token).data = Review.serialize r ∧
      Json.objKeys (Review.publish r token).data =
        ["owner", "repo", "pr_number", "body", "comments"] ∧
      (∀ c : Comment, Json.objKeys (Comment.to_json c) =
        ["body", "path", "line", "side", "start_line", "start_side"]) := by
  intro r token
  exact ⟨rfl, rfl, rfl, rfl, rfl, fun c => rfl⟩

/-- C4 counterexample: deleting a comment that is not present leaves the
review unchanged but the call succeeds silently — no NotFoundError is
signalled, contrary to the claim. -/
theorem c4_counterexample :
    Review.delete_comment review_one absent_comment = Except.ok review_one ∧
    (Review.delete_comment review_one absent_comment).isOk = true :=
  ⟨rfl, rfl⟩

/-- C4 amended: delete_comment removes the first structurally-equal match
from comments; deleting a comment with no structurally-equal element leaves
the review unchanged and returns normally (silent no-op), with no
NotFoundError signalled. -/
theorem c4_delete_comment_silent :
    ∀ (r : Review) (c : Comment),
      (c ∉ r.comments → Review.delete_comment r c = Except.ok r) ∧
      (∀ pre post, c ∉ pre → r.comments = pre ++ c :: post →
        Review.delete_comment r c = Except.ok { r with comments := pre ++ post }) := by
  intro r c
  constructor
  · intro h
    simp only [Review.delete_comment]
    rw [List.erase_of_not_mem h]
  · intro pre post hpre heq
    simp only [Review.delete_comment]
    rw [heq, List.erase_append_right _ hpre, List.erase_cons_head]

theorem c4_witness :
    Review.delete_comment review_one absent_comment = Except.ok review_one ∧
    Review.delete_comment review_one keep_comment =
      Except.ok { review_one with comments := [] } := by
  constructor
  · exact (c4_delete_comment_silent review_one absent_comment).1 (by decide)
  · have h := (c4_delete_comment_silent review_one keep_comment).2 [] [] (by decide) rfl
    simpa using h

/-- C6: get_review follows the get-or-create contract: when a persisted
review file exists for the PR number it returns the review deserialized
from that file's content, and otherwise a blank review with body "" and no
comments, with owner and repo supplied from the stored configuration. -/
theorem c6_get_review_get_or_create :
    ∀ (fs : Int → Option Json) (cfg : String × String) (pr : Int),
      (∀ j, fs pr = some j → get_review fs cfg pr = Review.deserialize j) ∧
      (fs pr = none →
        get_review fs cfg pr =
          some { owner := cfg.1, repo := cfg.2, pr_number := pr, body := "", comments := [] }) := by
  intro fs cfg pr
  constructor
  · intro j h
    simp [get_review, h]
  · intro h
    simp [get_review, h, new_blank_review]

theorem c6_witness :
    get_review (fun n => if n = 7 then some (Review.serialize rB) else none)
      ("acme", "widgets") 7 = some rB ∧
    get_review (fun n => if n = 7 then some (Review.serialize rB) else none)
      ("acme", "widgets") 8 =
      some { owner := "acme", repo := "widgets", pr_number := 8, body := "", comments := [] } := by
  constructor
  · have h := (c6_get_review_get_or_create
      (fun n => if n = 7 then some (Review.serialize rB) else none)
      ("acme", "widgets") 7).1 (Review.serialize rB) rfl
    rw [h]
    exact review_round_trip rB
  · exact (c6_get_review_get_or_create
      (fun n => if n = 7 then some (Review.serialize rB) else none)
      ("acme", "widgets") 8).2 rfl

/-- C7: saving twice in a row with no intervening mutation leaves the file
state exactly as one save does, the saved content is determined by the
review's fields alone, and serialization has a fixed stable key order. -/
theorem c7_save_idempotent :
    ∀ (fs : Int → Option Json) (r : Review),
      Review.save r (Review.save r fs) = Review.save r fs ∧
      Review.save r fs r.pr_number = some (Review.serialize r) ∧
      Json.objKeys (Review.serialize r) = ["owner", "repo", "pr_number", "body", "comments"] := by
  intro fs r
  refine ⟨funext fun pr => ?_, ?_, rfl⟩
  · by_cases h : pr = r.pr_number <;> simp [Review.save, h]
  · simp [Review.save]

/-- C8: invoking the ReviewComment command while a comment draft is already
in progress is rejected with the user-visible error message and changes no
session state: the original draft and review are untouched and no buffer
is opened. -/
theorem c8_review_comment_rejected_while_editing :
    ∀ (s : PluginState) (c : Comment) (path? : Option String) (rng : Int × Int),
      s.in_progress_comment = some c →
      review_comment s path? rng =
        (s, [Effect.err_write "A review comment is already being edited.\n"]) := by
  intro s c p rng h
  simp [review_comment, h]

theorem c8_witness :
    review_comment { review_active := true, review := some rB, in_progress_comment := some cB1 }
      (some "src/a.py") (3, 4) =
      ({ review_active := true, review := some rB, in_progress_comment := some cB1 },
       [Effect.err_write "A review comment is already being edited.\n"]) :=
  c8_review_comment_rejected_while_editing _ cB1 _ _ rfl

theorem splitOnChar_length (sep : Char) (l : List Char) :
    (splitOnChar sep l).length = countChar sep l + 1 := by
  induction l with
  | nil => rfl
  | cons c rest ih =>
    by_cases h : c = sep
    · simp [splitOnChar, countChar, h, ih]
      omega
    · cases hsp : splitOnChar sep rest with
      | nil => rw [hsp] at ih; simp at ih
      | cons hh tt =>
        rw [hsp] at ih
        simp [splitOnChar, countChar, h, hsp]
        simp at ih
        omega

theorem splitOnChar_of_count_zero (sep : Char) (l : List Char)
    (h : countChar sep l = 0) : splitOnChar sep l = [l] := by
  induction l with
  | nil => rfl
  | cons c rest ih =>
    by_cases hc : c = sep
    · simp [countChar, hc] at h
    · simp [countChar, hc] at h
      rw [splitOnChar, if_neg hc, ih h]

theorem splitOnChar_of_count_one (sep : Char) (l : List Char)
    (h : countChar sep l = 1) :
    splitOnChar sep l =
      [l.takeWhile (fun x => x != sep), (l.dropWhile (fun x => x != sep)).tail] := by
  induction l with
  | nil => simp [countChar] at h
  | cons c rest ih =>
    by_cases hc : c = sep
    · subst hc
      simp [countChar] at h
      rw [splitOnChar, if_pos rfl, splitOnChar_of_count_zero c rest h]
      simp [List.takeWhile_cons, List.dropWhile_cons]
    · simp [countChar, hc] at h
      rw [splitOnChar, if_neg hc, ih h]
      simp [List.takeWhile_cons, List.dropWhile_cons, hc]

theorem split_repository_of_count_ne_one (repository : List Char)
    (h : countChar '/' repository ≠ 1) : split_repository repository = none := by
  have hlen := splitOnChar_length '/' repository
  unfold split_repository
  cases hsp : splitOnChar '/' repository with
  | nil => rfl
  | cons a t =>
    cases t with
    | nil => rfl
    | cons b t2 =>
      cases t2 with
      | nil =>
        rw [hsp] at hlen
        simp at hlen
        omega
      | cons x t3 => rfl

/-- C10: update_configuration succeeds exactly when the repository string
contains exactly one slash, writing the text before the slash as owner and
the text after it as repo, overwriting any prior config (warning first when
one exists); with zero or several slashes the call fails before the file is
opened for writing, leaving the existing config unchanged. -/
theorem c10_update_configuration :
    ∀ (prior : Option (List Char × List Char)) (repository : List Char),
      (countChar '/' repository = 1 →
        update_configuration prior repository =
          { config_file := some (repository.takeWhile (fun x => x != '/'),
              (repository.dropWhile (fun x => x != '/')).tail),
            warned := prior.isSome, error := false }) ∧
      (countChar '/' repository ≠ 1 →
        update_configuration prior repository =
          { config_file := prior, warned := prior.isSome, error := true }) := by
  intro prior repository
  constructor
  · intro h
    simp [update_configuration, split_repository, splitOnChar_of_count_one '/' repository h]
  · intro h
    simp [update_configuration, split_repository_of_count_ne_one repository h]

theorem c10_witness :
    update_configuration (some ("old".toList, "cfg".toList)) "acme/widgets".toList =
      { config_file := some ("acme".toList, "widgets".toList), warned := true, error := false } ∧
    update_configuration (some ("old".toList, "cfg".toList)) "acmewidgets".toList =
      { config_file := some ("old".toList, "cfg".toList), warned := true, error := true } := by
  constructor
  · have h := (c10_update_configuration (some ("old".toList, "cfg".toList))
      "acme/widgets".toList).1 (by decide)
    rw [h]
    decide
  · have h := (c10_update_configuration (some ("old".toList, "cfg".toList))
      "acmewidgets".toList).2 (by decide)
    rw [h]
    rfl

end VimReviewer
